import Mathlib

/-!
Shallow embedding of the image-splitter application (`src/App.tsx`).

The program is a single React component.  Its logic consists of:
* `PAPER_FORMATS` / `getCurrentDimensions` — the dimension resolver;
* `toggleOrientation` — the orientation toggle;
* `handleFileUpload` — upload validation and decoding;
* `processImage` / `createSection` — the four-quadrant partitioner;
* `downloadSection` / `downloadAllSections` — export naming and archiving;
* the custom-dimension `onChange` handlers built on JavaScript `parseFloat`.

Physical dimensions (centimeters) and pixel coordinates are modelled as
rationals: the JavaScript numbers involved (format constants, halves of
integer pixel sizes, `parseFloat` of short decimal strings) are all exactly
representable, so ℚ is a faithful carrier.  Component state is a record of
the `useState` cells; each handler is a function from state (plus the
relevant platform inputs, e.g. canvas-context availability) to state.
-/

namespace ImageSplitter

/-- `type Orientation = 'portrait' | 'landscape'` -/
inductive Orientation where
  | portrait
  | landscape
deriving DecidableEq, Repr

/-- `type PaperFormat = 'A4' | 'A3' | 'A2' | 'custom'` -/
inductive PaperFormat where
  | A4
  | A3
  | A2
  | custom
deriving DecidableEq, Repr

/-- `interface Dimensions { width: number; height: number }` (centimeters). -/
structure Dimensions where
  width : ℚ
  height : ℚ
deriving DecidableEq, Repr

/-- `const PAPER_FORMATS: Record<PaperFormat, Dimensions>` from `App.tsx`. -/
def PAPER_FORMATS : PaperFormat → Dimensions
  | .A4 => ⟨21, 29.7⟩
  | .A3 => ⟨29.7, 42⟩
  | .A2 => ⟨42, 59.4⟩
  | .custom => ⟨20, 20⟩

/-- `getCurrentDimensions` from `App.tsx`: the base dimensions are the stored
custom dimensions when the format is `custom` and the `PAPER_FORMATS` entry
otherwise; landscape swaps width and height. -/
def getCurrentDimensions (paperFormat : PaperFormat) (orientation : Orientation)
    (customDimensions : Dimensions) : Dimensions :=
  let baseDimensions :=
    if paperFormat = .custom then customDimensions else PAPER_FORMATS paperFormat
  if orientation = .landscape then
    ⟨baseDimensions.height, baseDimensions.width⟩
  else
    baseDimensions

/-- `toggleOrientation` from `App.tsx`:
`setOrientation(prev => prev === 'portrait' ? 'landscape' : 'portrait')`. -/
def toggleOrientation (prev : Orientation) : Orientation :=
  if prev = .portrait then .landscape else .portrait

/-- Width/height swap, as performed by the landscape branch of
`getCurrentDimensions`. -/
def swapDim (d : Dimensions) : Dimensions :=
  ⟨d.height, d.width⟩

/-- A pixel-space rectangle (x, y, width, height) with rational coordinates:
the canvas arithmetic in `processImage` (`canvas.width / 2`) is exact
JavaScript division and yields fractional values for odd pixel sizes. -/
structure Rect where
  x : ℚ
  y : ℚ
  w : ℚ
  h : ℚ
deriving DecidableEq, Repr

/-- The four source regions cropped by `processImage`, in push order
[top-left, top-right, bottom-left, bottom-right].  From the code:
`halfWidth = canvas.width / 2`, `halfHeight = canvas.height / 2`, and every
`createSection` call receives width `halfWidth` and height `halfHeight`. -/
def sectionRects (w h : ℕ) : List Rect :=
  let halfWidth : ℚ := (w : ℚ) / 2
  let halfHeight : ℚ := (h : ℚ) / 2
  [⟨0, 0, halfWidth, halfHeight⟩,
   ⟨halfWidth, 0, halfWidth, halfHeight⟩,
   ⟨0, halfHeight, halfWidth, halfHeight⟩,
   ⟨halfWidth, halfHeight, halfWidth, halfHeight⟩]

/-- The four regions as the specification words them (floor-based):
`midX = floor(W/2)`, `midY = floor(H/2)`, right/bottom regions of size
`W - midX` / `H - midY`.  Stated from the spec, for comparison with the
code's `sectionRects`. -/
def specRegions (w h : ℕ) : List Rect :=
  let midX : ℕ := w / 2
  let midY : ℕ := h / 2
  [⟨0, 0, (midX : ℚ), (midY : ℚ)⟩,
   ⟨(midX : ℚ), 0, ((w - midX : ℕ) : ℚ), (midY : ℚ)⟩,
   ⟨0, (midY : ℚ), (midX : ℚ), ((h - midY : ℕ) : ℚ)⟩,
   ⟨(midX : ℚ), (midY : ℚ), ((w - midX : ℕ) : ℚ), ((h - midY : ℕ) : ℚ)⟩]

/-- The set of points a rectangle covers (half-open on both axes). -/
def rectSet (r : Rect) : Set (ℚ × ℚ) :=
  {p | r.x ≤ p.1 ∧ p.1 < r.x + r.w ∧ r.y ≤ p.2 ∧ p.2 < r.y + r.h}

/-- A decoded `HTMLImageElement`: its pixel width and height. -/
structure SourceImage where
  width : ℕ
  height : ℕ
deriving DecidableEq, Repr

/-- `interface ImageSection { dataUrl; dimensions }`.  The `dataUrl` is
`sectionCanvas.toDataURL('image/png')` for the canvas holding the cropped
region; PNG encoding is an external black box, so the data URL is modelled
by the region it encodes. -/
structure ImageSection where
  rect : Rect
  dimensions : Dimensions
deriving DecidableEq, Repr

instance : Inhabited ImageSection :=
  ⟨⟨⟨0, 0, 0, 0⟩, ⟨0, 0⟩⟩⟩

/-- The `useState` cells of the `App` component.  `splitSections` stores
`Option ImageSection` because `createSection` returns `ImageSection | null`
and `processImage` pushes its result through a compile-time-only non-null
assertion (`createSection(...)!`) with no runtime check. -/
structure AppState where
  darkMode : Bool
  sourceImage : Option SourceImage
  fileName : String
  fileType : String
  paperFormat : PaperFormat
  orientation : Orientation
  customDimensions : Dimensions
  splitSections : List (Option ImageSection)
  isProcessing : Bool
  error : Option String
  previewImageUrl : Option String
  isPreviewOpen : Bool
deriving DecidableEq, Repr

/-- Whether `canvas.getContext('2d')` succeeds for the main canvas and for
each of the four per-section canvases — an input of the browser platform. -/
structure CanvasEnv where
  mainCtx : Bool
  sectionCtx : Fin 4 → Bool

/-- `createSection` (nested in `processImage`): crops the given source
rectangle into a fresh canvas and pairs it with half the output dimensions;
returns `null` when the section canvas has no 2d context. -/
def createSection (ctxOk : Bool) (outputDimensions : Dimensions) (r : Rect) :
    Option ImageSection :=
  if ctxOk then
    some { rect := r,
           dimensions := ⟨outputDimensions.width / 2, outputDimensions.height / 2⟩ }
  else
    none

/-- `processImage` from `App.tsx`: returns silently when no image is loaded;
reports an error when the main canvas has no 2d context; otherwise pushes the
four `createSection` results (top-left, top-right, bottom-left, bottom-right,
the rectangles of `sectionRects`) through the non-null assertion into
`splitSections`. -/
def processImage (env : CanvasEnv) (s : AppState) : AppState :=
  match s.sourceImage with
  | none => s
  | some sourceImage =>
    if env.mainCtx = false then
      { s with error := some "Canvas not supported in your browser.",
               isProcessing := false }
    else
      let outputDimensions :=
        getCurrentDimensions s.paperFormat s.orientation s.customDimensions
      let halfWidth : ℚ := (sourceImage.width : ℚ) / 2
      let halfHeight : ℚ := (sourceImage.height : ℚ) / 2
      let sections : List (Option ImageSection) :=
        [createSection (env.sectionCtx 0) outputDimensions
           ⟨0, 0, halfWidth, halfHeight⟩,
         createSection (env.sectionCtx 1) outputDimensions
           ⟨halfWidth, 0, halfWidth, halfHeight⟩,
         createSection (env.sectionCtx 2) outputDimensions
           ⟨0, halfHeight, halfWidth, halfHeight⟩,
         createSection (env.sectionCtx 3) outputDimensions
           ⟨halfWidth, halfHeight, halfWidth, halfHeight⟩]
      { s with splitSections := sections, isProcessing := false }

/-- A browser `File`, restricted to the fields the upload handler reads. -/
structure UploadedFile where
  name : String
  type : String
deriving DecidableEq, Repr

/-- `const validFileTypes = ['image/jpeg', 'image/png', 'image/tiff']`. -/
def validFileTypes : List String :=
  ["image/jpeg", "image/png", "image/tiff"]

/-- Outcome of the asynchronous `Image` load started by `handleFileUpload`:
`img.onload` with the decoded pixel size, or `img.onerror`. -/
inductive DecodeOutcome where
  | success (width height : ℕ)
  | failure
deriving DecidableEq, Repr

/-- `handleFileUpload` from `App.tsx`: no file selected is a no-op; an
unsupported content type sets the validation message and returns before the
`Image` object is even created; otherwise the error is cleared, name and type
stored, and the decode outcome either installs the new source image (clearing
previous sections) or reports a load failure. -/
def handleFileUpload (file : Option UploadedFile) (outcome : DecodeOutcome)
    (s : AppState) : AppState :=
  match file with
  | none => s
  | some file =>
    if file.type ∉ validFileTypes then
      { s with error := some "Invalid file type. Please upload JPG, PNG, or TIFF." }
    else
      let s1 := { s with error := none, fileName := file.name,
                         fileType := file.type }
      match outcome with
      | .success width height =>
          { s1 with sourceImage := some ⟨width, height⟩, splitSections := [] }
      | .failure =>
          { s1 with error := some "Failed to load image. Please try another file." }

/-- The first field of JavaScript `String.prototype.split`, i.e.
`str.split(sep)[0]`: the characters before the first separator (the whole
string when the separator does not occur). -/
def jsSplitFirstField (p : Char → Bool) : List Char → List Char
  | [] => []
  | c :: cs => if p c then [] else c :: jsSplitFirstField p cs

/-- `fileName.split('.')[0]`, as used by both export functions. -/
def splitBaseName (fileName : String) : String :=
  String.mk (jsSplitFirstField (fun c => c == '.') fileName.toList)

/-- The name built in `downloadSection`:
`${fileName.split('.')[0]}_section_${index + 1}.png` (`index` is 0-based). -/
def downloadSectionName (fileName : String) (index : ℕ) : String :=
  splitBaseName fileName ++ "_section_" ++ toString (index + 1) ++ ".png"

/-- The archive entry name built in `downloadAllSections`:
`${fileName.split('.')[0]}_section_${index + 1}.png` (`index` is 0-based). -/
def zipEntryName (fileName : String) (index : ℕ) : String :=
  splitBaseName fileName ++ "_section_" ++ toString (index + 1) ++ ".png"

/-- From the spec's words: "derives the base by stripping everything after
the first dot" (the dot included). -/
def stripAfterFirstDot (fileName : String) : String :=
  String.mk (fileName.toList.takeWhile (fun c => c != '.'))

/-- `downloadAllSections` from `App.tsx`, as the archive it produces: `none`
(no archive, nothing else happens) when `splitSections` is empty or
`zip.folder` returns `null`; otherwise one named entry per stored section.
The function reads state but never writes it. -/
def downloadAllSections (folderOk : Bool) (s : AppState) :
    Option (List (String × Option ImageSection)) :=
  if s.splitSections.length = 0 then none
  else if folderOk = false then none
  else some (s.splitSections.enum.map fun p => (zipEntryName s.fileName p.1, p.2))

/-- The digit run of a decimal literal, as a natural number. -/
def digitsToNat (ds : List Char) : ℕ :=
  ds.foldl (fun a c => a * 10 + (c.toNat - Char.toNat '0')) 0

/-- Character-level scan of JavaScript `parseFloat`: optional leading
whitespace, optional sign, a decimal digit run with an optional fractional
digit run after a dot, trailing junk ignored.  Returns the sign, the integer
part, the fractional digits' value and their count; `none` models `NaN`. -/
def parseFloatScan (s : String) : Option (Bool × ℕ × ℕ × ℕ) :=
  let cs := s.toList.dropWhile Char.isWhitespace
  let signed : Bool × List Char :=
    match cs with
    | '-' :: rest => (true, rest)
    | '+' :: rest => (false, rest)
    | _ => (false, cs)
  let intDigits := signed.2.takeWhile Char.isDigit
  let afterInt := signed.2.dropWhile Char.isDigit
  let fracDigits :=
    match afterInt with
    | '.' :: rest => rest.takeWhile Char.isDigit
    | _ => []
  if intDigits.isEmpty && fracDigits.isEmpty then none
  else some (signed.1, digitsToNat intDigits, digitsToNat fracDigits, fracDigits.length)

/-- Model of JavaScript `parseFloat` on the strings a number input field
produces, built from `parseFloatScan`; `none` models `NaN`.  (Exponents and
`Infinity`, which the handlers would treat like any other non-zero value,
are left out of the model.) -/
def jsParseFloat (s : String) : Option ℚ :=
  (parseFloatScan s).map fun r =>
    let v : ℚ := (r.2.1 : ℚ) + (r.2.2.1 : ℚ) / 10 ^ r.2.2.2
    if r.1 then -v else v

/-- JavaScript `x || 1` applied to a `parseFloat` result: `NaN` and `0` are
falsy and give `1`. -/
def jsOrOne (x : Option ℚ) : ℚ :=
  match x with
  | none => 1
  | some v => if v = 0 then 1 else v

/-- The custom width field handler:
`setCustomDimensions(prev => ({ ...prev, width: parseFloat(e.target.value) || 1 }))`. -/
def widthOnChange (prev : Dimensions) (value : String) : Dimensions :=
  { prev with width := jsOrOne (jsParseFloat value) }

/-- The custom height field handler:
`setCustomDimensions(prev => ({ ...prev, height: parseFloat(e.target.value) || 1 }))`. -/
def heightOnChange (prev : Dimensions) (value : String) : Dimensions :=
  { prev with height := jsOrOne (jsParseFloat value) }

/-- The dimension resolver as the specification words it: reports
`InvalidCustomDimension` when the format is custom and a stored custom
dimension is non-positive, and succeeds with the oriented base dimensions
otherwise.  Stated from the spec, for comparison with the code's
`getCurrentDimensions`. -/
def resolveDimensionsSpec (paperFormat : PaperFormat) (orientation : Orientation)
    (customDimensions : Dimensions) : Except String Dimensions :=
  if paperFormat = .custom ∧
      (customDimensions.width ≤ 0 ∨ customDimensions.height ≤ 0) then
    .error "InvalidCustomDimension"
  else
    .ok (getCurrentDimensions paperFormat orientation customDimensions)

/-- A concrete component state for the closed instances below: an 800×600
image loaded as `photo.JPG`, custom 15×10 portrait, no sections computed. -/
def sampleState : AppState where
  darkMode := false
  sourceImage := some ⟨800, 600⟩
  fileName := "photo.JPG"
  fileType := "image/jpeg"
  paperFormat := .custom
  orientation := .portrait
  customDimensions := ⟨15, 10⟩
  splitSections := []
  isProcessing := false
  error := none
  previewImageUrl := none
  isPreviewOpen := false

/-- Every canvas context available. -/
def allCtxOk : CanvasEnv :=
  ⟨true, fun _ => true⟩

/-- Main canvas context available, every per-section context unavailable. -/
def sectionCtxBroken : CanvasEnv :=
  ⟨true, fun _ => false⟩

end ImageSplitter

namespace ImageSplitter

/-- C2: for every paper format and orientation the resolver returns the
documented base dimensions, unchanged under portrait and swapped under
landscape; the custom base is the user-supplied record. -/
theorem getCurrentDimensions_matches_formats (o : Orientation) (d : Dimensions) :
    getCurrentDimensions .A4 o d =
      (if o = .landscape then ⟨29.7, 21⟩ else ⟨21, 29.7⟩)
    ∧ getCurrentDimensions .A3 o d =
      (if o = .landscape then ⟨42, 29.7⟩ else ⟨29.7, 42⟩)
    ∧ getCurrentDimensions .A2 o d =
      (if o = .landscape then ⟨59.4, 42⟩ else ⟨42, 59.4⟩)
    ∧ getCurrentDimensions .custom o d =
      (if o = .landscape then ⟨d.height, d.width⟩ else d) := by
  cases o <;> simp [getCurrentDimensions, PAPER_FORMATS]

/-- C9: toggling orientation twice is the identity, and a single toggle swaps
the width and height of the resolved dimensions for any format and any stored
custom dimensions. -/
theorem toggleOrientation_involutive (o : Orientation) (fmt : PaperFormat)
    (d : Dimensions) :
    toggleOrientation (toggleOrientation o) = o
    ∧ getCurrentDimensions fmt (toggleOrientation o) d =
      swapDim (getCurrentDimensions fmt o d) := by
  cases o <;> cases fmt <;>
    simp [toggleOrientation, getCurrentDimensions, swapDim, PAPER_FORMATS]

/-- C1 fails as stated: on an 801×600 image the partitioner's regions are
not the floor-based regions of the claim — all four code regions have width
801/2 = 400.5, not 400 (left) and 401 (right). -/
theorem sectionRects_ne_specRegions_801x600 :
    sectionRects 801 600 ≠ specRegions 801 600
    ∧ (sectionRects 801 600).map Rect.w = [801 / 2, 801 / 2, 801 / 2, 801 / 2]
    ∧ (specRegions 801 600).map Rect.w = [400, 401, 400, 401] := by
  refine ⟨?_, ?_, ?_⟩
  · intro hcontra
    have hx := congrArg (fun l => (l.headD ⟨0, 0, 0, 0⟩).w) hcontra
    simp only [sectionRects, specRegions, List.headD_cons] at hx
    norm_num at hx
  · simp only [sectionRects, List.map_cons, List.map_nil]
    norm_num
  · simp only [specRegions, List.map_cons, List.map_nil]
    norm_num

/-- C1 amended: the partitioner produces exactly four regions in the fixed
order [top-left, top-right, bottom-left, bottom-right], each of width `W/2`
and height `H/2` with exact (possibly fractional) halves; the four half-open
regions tile the `W×H` image exactly with no overlap or gap; and when both
pixel dimensions are even this coincides with the spec's floor-based
regions. -/
theorem sectionRects_exact_halves (w h : ℕ) (hw : 1 ≤ w) (hh : 1 ≤ h) :
    (sectionRects w h).length = 4
    ∧ sectionRects w h =
        [⟨0, 0, (w : ℚ) / 2, (h : ℚ) / 2⟩,
         ⟨(w : ℚ) / 2, 0, (w : ℚ) / 2, (h : ℚ) / 2⟩,
         ⟨0, (h : ℚ) / 2, (w : ℚ) / 2, (h : ℚ) / 2⟩,
         ⟨(w : ℚ) / 2, (h : ℚ) / 2, (w : ℚ) / 2, (h : ℚ) / 2⟩]
    ∧ rectSet ⟨0, 0, (w : ℚ) / 2, (h : ℚ) / 2⟩
        ∪ rectSet ⟨(w : ℚ) / 2, 0, (w : ℚ) / 2, (h : ℚ) / 2⟩
        ∪ rectSet ⟨0, (h : ℚ) / 2, (w : ℚ) / 2, (h : ℚ) / 2⟩
        ∪ rectSet ⟨(w : ℚ) / 2, (h : ℚ) / 2, (w : ℚ) / 2, (h : ℚ) / 2⟩
        = rectSet ⟨0, 0, (w : ℚ), (h : ℚ)⟩
    ∧ (sectionRects w h).Pairwise (fun a b => rectSet a ∩ rectSet b = ∅)
    ∧ (w % 2 = 0 → h % 2 = 0 → sectionRects w h = specRegions w h) := by
  have hw2 : (w : ℚ) / 2 + (w : ℚ) / 2 = (w : ℚ) := by ring
  have hh2 : (h : ℚ) / 2 + (h : ℚ) / 2 = (h : ℚ) := by ring
  have hw0 : (0 : ℚ) ≤ (w : ℚ) / 2 := by positivity
  have hh0 : (0 : ℚ) ≤ (h : ℚ) / 2 := by positivity
  refine ⟨by simp [sectionRects], by simp [sectionRects], ?_, ?_, ?_⟩
  · ext ⟨a, b⟩
    simp only [rectSet, Set.mem_union, Set.mem_setOf_eq]
    constructor
    · rintro (((⟨h1, h2, h3, h4⟩ | ⟨h1, h2, h3, h4⟩) | ⟨h1, h2, h3, h4⟩) |
        ⟨h1, h2, h3, h4⟩) <;>
        refine ⟨by linarith, by linarith, by linarith, by linarith⟩
    · rintro ⟨h1, h2, h3, h4⟩
      rcases lt_or_le a ((w : ℚ) / 2) with ha | ha <;>
        rcases lt_or_le b ((h : ℚ) / 2) with hb | hb
      · exact Or.inl (Or.inl (Or.inl ⟨by linarith, by linarith, by linarith,
          by linarith⟩))
      · exact Or.inl (Or.inr ⟨by linarith, by linarith, by linarith,
          by linarith⟩)
      · exact Or.inl (Or.inl (Or.inr ⟨by linarith, by linarith, by linarith,
          by linarith⟩))
      · exact Or.inr ⟨by linarith, by linarith, by linarith, by linarith⟩
  · have key : ∀ r s : Rect,
        (r.x + r.w ≤ s.x ∨ s.x + s.w ≤ r.x ∨ r.y + r.h ≤ s.y ∨ s.y + s.h ≤ r.y) →
        rectSet r ∩ rectSet s = ∅ := by
      intro r s hsep
      apply Set.eq_empty_iff_forall_not_mem.mpr
      rintro ⟨a, b⟩ ⟨hmem1, hmem2⟩
      simp only [rectSet, Set.mem_setOf_eq] at hmem1 hmem2
      obtain ⟨h1a, h1b, h1c, h1d⟩ := hmem1
      obtain ⟨h2a, h2b, h2c, h2d⟩ := hmem2
      rcases hsep with hs | hs | hs | hs <;> linarith
    simp only [sectionRects]
    refine List.Pairwise.cons ?_ (List.Pairwise.cons ?_ (List.Pairwise.cons ?_
      (List.pairwise_singleton _ _)))
    · intro r hr
      rcases List.mem_cons.mp hr with rfl | hr
      · exact key _ _ (Or.inl (by norm_num))
      rcases List.mem_cons.mp hr with rfl | hr
      · exact key _ _ (Or.inr (Or.inr (Or.inl (by norm_num))))
      rcases List.mem_cons.mp hr with rfl | hr
      · exact key _ _ (Or.inl (by norm_num))
      · exact absurd hr (List.not_mem_nil r)
    · intro r hr
      rcases List.mem_cons.mp hr with rfl | hr
      · exact key _ _ (Or.inr (Or.inl (by norm_num)))
      rcases List.mem_cons.mp hr with rfl | hr
      · exact key _ _ (Or.inr (Or.inr (Or.inl (by norm_num))))
      · exact absurd hr (List.not_mem_nil r)
    · intro r hr
      rcases List.mem_cons.mp hr with rfl | hr
      · exact key _ _ (Or.inl (by norm_num))
      · exact absurd hr (List.not_mem_nil r)
  · intro h2w h2h
    obtain ⟨k, rfl⟩ := Nat.dvd_of_mod_eq_zero h2w
    obtain ⟨l, rfl⟩ := Nat.dvd_of_mod_eq_zero h2h
    have e1 : 2 * k / 2 = k := by omega
    have e2 : 2 * k - 2 * k / 2 = k := by omega
    have e3 : 2 * l / 2 = l := by omega
    have e4 : 2 * l - 2 * l / 2 = l := by omega
    simp only [sectionRects, specRegions, e1, e2, e3, e4, List.cons.injEq,
      and_true, Rect.mk.injEq]
    push_cast
    norm_num
    all_goals omega

/-- Closed instance of `sectionRects_exact_halves` at the 801×600 image of
the claim: four sections, every region an exact half 400.5 wide and 300
tall. -/
theorem sectionRects_exact_halves_witness :
    (sectionRects 801 600).length = 4
    ∧ sectionRects 801 600 =
        [⟨0, 0, ((801 : ℕ) : ℚ) / 2, ((600 : ℕ) : ℚ) / 2⟩,
         ⟨((801 : ℕ) : ℚ) / 2, 0, ((801 : ℕ) : ℚ) / 2, ((600 : ℕ) : ℚ) / 2⟩,
         ⟨0, ((600 : ℕ) : ℚ) / 2, ((801 : ℕ) : ℚ) / 2, ((600 : ℕ) : ℚ) / 2⟩,
         ⟨((801 : ℕ) : ℚ) / 2, ((600 : ℕ) : ℚ) / 2, ((801 : ℕ) : ℚ) / 2,
          ((600 : ℕ) : ℚ) / 2⟩] :=
  ⟨(sectionRects_exact_halves 801 600 (by norm_num) (by norm_num)).1,
   (sectionRects_exact_halves 801 600 (by norm_num) (by norm_num)).2.1⟩

/-- C3: on a successful split all four stored sections carry the same
physical dimensions, each exactly half the resolved output width and height,
independent of the pixel regions' sizes. -/
theorem splitSections_half_output (env : CanvasEnv) (s : AppState)
    (img : SourceImage) (himg : s.sourceImage = some img)
    (hmain : env.mainCtx = true) (hsec : ∀ i, env.sectionCtx i = true) :
    (processImage env s).splitSections.map (Option.map ImageSection.dimensions) =
      List.replicate 4 (some
        ⟨(getCurrentDimensions s.paperFormat s.orientation s.customDimensions).width / 2,
         (getCurrentDimensions s.paperFormat s.orientation s.customDimensions).height / 2⟩) := by
  simp [processImage, himg, hmain, createSection, hsec 0, hsec 1, hsec 2, hsec 3,
    List.replicate]

/-- Closed instance of `splitSections_half_output`: splitting the sample
state (custom 15×10, portrait) gives four sections of physical size
7.5×5.0. -/
theorem splitSections_half_output_witness :
    (processImage allCtxOk sampleState).splitSections.map
        (Option.map ImageSection.dimensions) =
      List.replicate 4 (some ⟨7.5, 5⟩) := by
  have hd : getCurrentDimensions sampleState.paperFormat sampleState.orientation
      sampleState.customDimensions = ⟨15, 10⟩ := rfl
  have h := splitSections_half_output allCtxOk sampleState ⟨800, 600⟩ rfl rfl
    (fun i => rfl)
  rw [hd] at h
  convert h using 3 <;> norm_num

/-- C4 fails as stated: with stored custom dimensions −5×10 the spec's
resolver must report InvalidCustomDimension, but the code's resolver
succeeds, returning the non-positive dimensions unchanged — no validation
error exists on this path. -/
theorem getCurrentDimensions_no_validation :
    resolveDimensionsSpec .custom .portrait ⟨-5, 10⟩ =
      .error "InvalidCustomDimension"
    ∧ getCurrentDimensions .custom .portrait ⟨-5, 10⟩ = ⟨-5, 10⟩ := by
  constructor
  · rw [resolveDimensionsSpec, if_pos ⟨rfl, Or.inl (by norm_num)⟩]
  · simp [getCurrentDimensions]

/-- C4 amended: the resolver never validates — even when a stored custom
dimension is non-positive it succeeds, returning exactly the stored
dimensions (swapped under landscape). -/
theorem getCurrentDimensions_total_on_custom (o : Orientation) (d : Dimensions)
    (hbad : d.width ≤ 0 ∨ d.height ≤ 0) :
    getCurrentDimensions .custom o d =
      (if o = .landscape then ⟨d.height, d.width⟩ else d) := by
  cases o <;> simp [getCurrentDimensions]

/-- Closed instance of `getCurrentDimensions_total_on_custom` at −5×10,
portrait. -/
theorem getCurrentDimensions_total_on_custom_witness :
    ((-5 : ℚ) ≤ 0 ∨ (10 : ℚ) ≤ 0)
    ∧ getCurrentDimensions .custom .portrait ⟨-5, 10⟩ =
        (if (Orientation.portrait = .landscape) then ⟨(10 : ℚ), (-5 : ℚ)⟩
         else ⟨-5, 10⟩) :=
  ⟨Or.inl (by norm_num),
   getCurrentDimensions_total_on_custom .portrait ⟨-5, 10⟩ (Or.inl (by norm_num))⟩

/-- C5 fails as stated: with no source image the split is a silent no-op
that reports no error, and when every per-section canvas context is
unavailable the stored section list is replaced by a four-entry list of
nulls — a partial (all-invalid) result is surfaced instead of the list being
left unchanged. -/
theorem processImage_surfaces_partial_results :
    processImage sectionCtxBroken { sampleState with sourceImage := none } =
      { sampleState with sourceImage := none }
    ∧ (processImage sectionCtxBroken
        { sampleState with sourceImage := none }).error = none
    ∧ (processImage sectionCtxBroken sampleState).splitSections =
        [none, none, none, none]
    ∧ (processImage sectionCtxBroken sampleState).splitSections ≠
        sampleState.splitSections := by
  refine ⟨rfl, rfl, ?_, ?_⟩
  · simp [processImage, sampleState, sectionCtxBroken, createSection]
  · simp [processImage, sampleState, sectionCtxBroken, createSection]

/-- C5 amended: with no source image the split is a silent no-op (state
unchanged, no error reported); with the main canvas context unavailable an
error message is reported and the section list is untouched; but with a
per-section context unavailable the operation still stores a four-entry
list, with null at that section's position — the all-or-nothing guarantee
fails at this boundary. -/
theorem processImage_failure_modes (env : CanvasEnv) (s : AppState) :
    (s.sourceImage = none → processImage env s = s)
    ∧ (∀ img, s.sourceImage = some img → env.mainCtx = false →
        (processImage env s).splitSections = s.splitSections
        ∧ (processImage env s).error =
          some "Canvas not supported in your browser.")
    ∧ (∀ img, s.sourceImage = some img → env.mainCtx = true →
        (processImage env s).splitSections.length = 4
        ∧ ∀ i : Fin 4, env.sectionCtx i = false →
            (processImage env s).splitSections.getD i.val (some default) = none) := by
  refine ⟨?_, ?_, ?_⟩
  · intro h
    simp [processImage, h]
  · intro img h hm
    constructor <;> simp [processImage, h, hm]
  · intro img h hm
    constructor
    · simp [processImage, h, hm]
    · intro i hi
      fin_cases i <;> simp_all [processImage, createSection]

/-- Closed instance of `processImage_failure_modes`: the no-image no-op, the
missing-main-context error with untouched sections, and the null entry
stored when section 0's context is unavailable. -/
theorem processImage_failure_modes_witness :
    processImage sectionCtxBroken { sampleState with sourceImage := none } =
      { sampleState with sourceImage := none }
    ∧ ((processImage ⟨false, fun _ => true⟩ sampleState).splitSections =
        sampleState.splitSections
       ∧ (processImage ⟨false, fun _ => true⟩ sampleState).error =
         some "Canvas not supported in your browser.")
    ∧ (processImage sectionCtxBroken sampleState).splitSections.getD
        ((0 : Fin 4)).val (some default) = none :=
  ⟨(processImage_failure_modes sectionCtxBroken
      { sampleState with sourceImage := none }).1 rfl,
   (processImage_failure_modes ⟨false, fun _ => true⟩ sampleState).2.1
      ⟨800, 600⟩ rfl rfl,
   ((processImage_failure_modes sectionCtxBroken sampleState).2.2
      ⟨800, 600⟩ rfl rfl).2 0 rfl⟩

/-- C6: an upload whose content type is not JPEG/PNG/TIFF sets the
validation message, leaves the loaded state (source image, file name, file
type, sections) unchanged, and its result is independent of any decode
outcome — decoding is never reached. -/
theorem handleFileUpload_invalid_type (f : UploadedFile) (d : DecodeOutcome)
    (s : AppState) (hf : f.type ∉ validFileTypes) :
    handleFileUpload (some f) d s =
      { s with error := some "Invalid file type. Please upload JPG, PNG, or TIFF." }
    ∧ (handleFileUpload (some f) d s).sourceImage = s.sourceImage
    ∧ (handleFileUpload (some f) d s).fileName = s.fileName
    ∧ (handleFileUpload (some f) d s).fileType = s.fileType
    ∧ (handleFileUpload (some f) d s).splitSections = s.splitSections
    ∧ ∀ d2 : DecodeOutcome,
        handleFileUpload (some f) d2 s = handleFileUpload (some f) d s := by
  have hmain : ∀ d2 : DecodeOutcome, handleFileUpload (some f) d2 s =
      { s with error := some "Invalid file type. Please upload JPG, PNG, or TIFF." } := by
    intro d2
    simp only [handleFileUpload]
    rw [if_pos hf]
  refine ⟨hmain d, ?_, ?_, ?_, ?_, fun d2 => (hmain d2).trans (hmain d).symm⟩ <;>
    simp [hmain d]

/-- Closed instance of `handleFileUpload_invalid_type`: uploading a
`text/plain` file over the sample state only sets the validation message. -/
theorem handleFileUpload_invalid_type_witness :
    handleFileUpload (some ⟨"note.txt", "text/plain"⟩) .failure sampleState =
      { sampleState with
          error := some "Invalid file type. Please upload JPG, PNG, or TIFF." } :=
  (handleFileUpload_invalid_type ⟨"note.txt", "text/plain"⟩ .failure sampleState
    (by decide)).1

/-- C7: for indices 1–4, both the single-section download name and the
archive entry name are the original file name up to (and excluding) its
first dot, followed by `_section_<i>.png`. -/
theorem exportNames_strip_first_dot (fileName : String) (i : ℕ)
    (h1 : 1 ≤ i) (h4 : i ≤ 4) :
    downloadSectionName fileName (i - 1) =
      stripAfterFirstDot fileName ++ "_section_" ++ toString i ++ ".png"
    ∧ zipEntryName fileName (i - 1) = downloadSectionName fileName (i - 1) := by
  have hbase : splitBaseName fileName = stripAfterFirstDot fileName := by
    unfold splitBaseName stripAfterFirstDot
    congr 1
    induction fileName.toList with
    | nil => rfl
    | cons c cs ih =>
      by_cases hc : c = '.'
      · subst hc
        simp [jsSplitFirstField, List.takeWhile]
      · have hb : (c != '.') = true := bne_iff_ne.mpr hc
        simp [jsSplitFirstField, List.takeWhile, hc, ih, hb]
  have hidx : i - 1 + 1 = i := by omega
  refine ⟨?_, rfl⟩
  unfold downloadSectionName
  rw [hbase, hidx]

/-- Closed instance of `exportNames_strip_first_dot`: `photo.JPG` with index
2 exports as `photo_section_2.png` from both export paths. -/
theorem exportNames_strip_first_dot_witness :
    downloadSectionName "photo.JPG" (2 - 1) =
      stripAfterFirstDot "photo.JPG" ++ "_section_" ++ toString 2 ++ ".png"
    ∧ zipEntryName "photo.JPG" (2 - 1) = downloadSectionName "photo.JPG" (2 - 1)
    ∧ downloadSectionName "photo.JPG" (2 - 1) = "photo_section_2.png" :=
  ⟨(exportNames_strip_first_dot "photo.JPG" 2 (by norm_num) (by norm_num)).1,
   (exportNames_strip_first_dot "photo.JPG" 2 (by norm_num) (by norm_num)).2,
   by decide⟩

/-- C8: invoking the archive export with no computed sections produces no
archive, whatever the platform folder call would do; the function only reads
state. -/
theorem downloadAllSections_empty_noop (folderOk : Bool) (s : AppState)
    (h : s.splitSections = []) :
    downloadAllSections folderOk s = none := by
  simp [downloadAllSections, h]

/-- Closed instance of `downloadAllSections_empty_noop` on the sample state
(no sections computed). -/
theorem downloadAllSections_empty_noop_witness :
    downloadAllSections true sampleState = none :=
  downloadAllSections_empty_noop true sampleState rfl

/-- C10: after an edit of a custom dimension field the stored value is
`parseFloat` of the field text when that parses to a non-zero number
(negative values included, stored as-is), and 1 when the parse is NaN or 0;
the other field is untouched and no input is ever rejected. -/
theorem customDimension_onChange_semantics (prev : Dimensions) (value : String) :
    (jsParseFloat value = none →
      widthOnChange prev value = { prev with width := 1 }
      ∧ heightOnChange prev value = { prev with height := 1 })
    ∧ (jsParseFloat value = some 0 →
      widthOnChange prev value = { prev with width := 1 }
      ∧ heightOnChange prev value = { prev with height := 1 })
    ∧ (∀ v : ℚ, jsParseFloat value = some v → v ≠ 0 →
      widthOnChange prev value = { prev with width := v }
      ∧ heightOnChange prev value = { prev with height := v }) := by
  refine ⟨?_, ?_, ?_⟩
  · intro h
    constructor <;> simp [widthOnChange, heightOnChange, jsOrOne, h]
  · intro h
    constructor <;> simp [widthOnChange, heightOnChange, jsOrOne, h]
  · intro v h hv
    constructor <;> simp [widthOnChange, heightOnChange, jsOrOne, h, hv]

/-- Closed instance of `customDimension_onChange_semantics`: typing `-5`
stores −5 as-is, and the empty field (NaN parse) stores 1. -/
theorem customDimension_onChange_semantics_witness :
    jsParseFloat "-5" = some (-5)
    ∧ (-5 : ℚ) ≠ 0
    ∧ widthOnChange ⟨20, 20⟩ "-5" =
        { (⟨20, 20⟩ : Dimensions) with width := (-5 : ℚ) }
    ∧ jsParseFloat "" = none
    ∧ heightOnChange ⟨20, 20⟩ "" =
        { (⟨20, 20⟩ : Dimensions) with height := 1 } := by
  have hneg : jsParseFloat "-5" = some (-5) := by
    have h : parseFloatScan "-5" = some (true, 5, 0, 0) := by decide
    simp [jsParseFloat, h]
  have hnan : jsParseFloat "" = none := by
    have h : parseFloatScan "" = none := by decide
    simp [jsParseFloat, h]
  refine ⟨hneg, by norm_num, ?_, hnan, ?_⟩
  · exact ((customDimension_onChange_semantics ⟨20, 20⟩ "-5").2.2 (-5) hneg
      (by norm_num)).1
  · exact ((customDimension_onChange_semantics ⟨20, 20⟩ "").1 hnan).2

end ImageSplitter
